import Mathlib

/-!
# Verification of the sopel `currency` module

A shallow embedding of `sopel/modules/currency.py` (the rate-cache-and-conversion
engine of the currency chat command) together with theorems settling the frozen
claims about its specification.

Modelling conventions:
* Python floats are idealised as exact rationals (`Rat`); the claims about rate
  arithmetic explicitly allow exact arithmetic.
* Network I/O is an oracle: each `requests.get` call's outcome is a parameter
  (`none` = the GET itself raised a `requests` exception; otherwise an
  `HttpResp` carrying the status check and the parsed JSON body, where
  `body = none` means `.json()` raises `ValueError`).
* JSON dictionaries are association lists with first-match lookup; only the
  fields the module reads are modelled.
* Python exceptions are explicit (`PyExc`); a function that can raise returns
  its normal result together with an `Option PyExc`, and module-level state
  mutated before the raise is preserved (Python globals survive exceptions).
* Strings are treated as ASCII; Python's `\s`, `\d`, `.upper()`, `.split()`
  agree with the modelled versions on the ASCII inputs the command sees.
-/

/-- Python exceptions that the module can raise or catch.  All exception types
from the `requests` library that the module handles (`RequestException` and its
subclasses `HTTPError`, `ConnectionError`) are collapsed into
`requestException`: the only raisers are `requests.get` / `raise_for_status`
inside `update_rates`, and `exchange` treats every `RequestException` alike. -/
inductive PyExc where
  | requestException
  | valueError
  | keyError (key : String)
  | typeError
  | zeroDivisionError
  | indexError
  deriving DecidableEq, Repr

/-- A Python value that is either a float or a str (the module's `amount`
variable keeps its unparsed string value when `float(amount)` fails). -/
inductive PyVal where
  | num (q : Rat)
  | str (s : String)
  deriving DecidableEq, Repr

/-- Python truthiness of such a value (`if not amount`). -/
def pyFalsy : PyVal → Bool
  | .num q => q = 0
  | .str s => s = ""

/-- Python `/` on floats: raises `ZeroDivisionError` on a zero denominator. -/
def pyDiv (a b : Rat) : Except PyExc Rat :=
  if b = 0 then .error .zeroDivisionError else .ok (a / b)

/-- First-match lookup in a JSON-object-as-association-list (`d[k]` / `k in d`). -/
def dictGet : List (String × Rat) → String → Option Rat
  | [], _ => none
  | (k0, v0) :: rest, k => if k0 = k then some v0 else dictGet rest k

/-- Python dict assignment `d[k] = v`: overwrite the existing entry, else append. -/
def dictSet : List (String × Rat) → String → Rat → List (String × Rat)
  | [], k, v => [(k, v)]
  | (k0, v0) :: rest, k, v =>
    if k0 = k then (k0, v) :: rest else (k0, v0) :: dictSet rest k v

/-- The global `rates_fiat_json` dictionary.  Only the fields the module reads
are modelled: the `'date'` entry (present iff `date = some _`) and the
`'rates'` sub-dictionary (present iff `rates = some _`).  The initial value
`{}` is `⟨none, none⟩`. -/
structure FiatJson where
  date : Option Rat
  rates : Option (List (String × Rat))
  deriving DecidableEq, Repr

/-- The parsed JSON body of a fiat-provider response.  `success` and `error`
are only read on the fixer.io path; `rates` is the rate table.  A missing
field is `none` (reading it raises `KeyError`). -/
structure FiatBody where
  success : Option Bool
  error : Option String
  rates : Option (List (String × Rat))
  deriving DecidableEq, Repr

/-- The module's global state: `rates_fiat_json` and `rates_btc_json`.  The
crypto dictionary maps composite keys such as `"BTCUSD"` directly to the
`['averages']['day']` value, the only field the module reads from it. -/
structure CurrencyState where
  rates_fiat_json : FiatJson
  rates_btc_json : List (String × Rat)
  deriving DecidableEq, Repr

/-- Outcome of a single `requests.get` that did not itself raise: the status
check (`raise_for_status` succeeds iff `ok2xx`) and the JSON body
(`none` = `.json()` raises `ValueError`). -/
structure HttpResp (α : Type) where
  ok2xx : Bool
  body : Option α
  deriving DecidableEq, Repr

/-- Result of `update_rates`: the (possibly mutated) globals, the replies sent
via `bot.reply`, the number of `requests.get` calls performed, and the
exception propagating out of the function, if any. -/
structure URResult where
  state : CurrencyState
  replies : List String
  fetches : Nat
  exc : Option PyExc
  deriving DecidableEq, Repr

/-- Lines 50–53 of `update_rates`: data are fresh iff the `'date'` key exists
and `time.time() - rates_fiat_json['date'] < 24 * 60 * 60`. -/
def isFresh (fi : FiatJson) (now : Rat) : Bool :=
  match fi.date with
  | some d => now - d < 24 * 60 * 60
  | none => false

/-- Lines 69–72 of `update_rates`, shared by both fiat branches once the
fixer success-check (if any) has passed: `raise_for_status()`, parse the body,
assign it to `rates_fiat_json`, stamp `'date'`, and force `rates['EUR'] = 1.0`.
If the body has no `'rates'` key, the `KeyError` is raised only after the
global has already been replaced (lines 70–71 have run). -/
def finishFiat (st1 : CurrencyState) (now : Rat) (fr : HttpResp FiatBody) : URResult :=
  if !fr.ok2xx then ⟨st1, [], 2, some .requestException⟩
  else
    match fr.body with
    | none => ⟨st1, [], 2, some .valueError⟩
    | some body =>
      match body.rates with
      | none =>
        ⟨{ st1 with rates_fiat_json := { date := some now, rates := none } },
          [], 2, some (.keyError "rates")⟩
      | some rs =>
        ⟨{ st1 with rates_fiat_json := { date := some now, rates := some (dictSet rs "EUR" 1) } },
          [], 2, none⟩

/-- Lines 46–72: `update_rates(bot)`.  `fixerKey` is
`bot.config.currency.fixer_io_key`; `cryptoResp` and `fiatResp` are the
oracle outcomes of the crypto GET and of the (fixer or free) fiat GET.
Mirrors the source's order: freshness check on the *fiat* date; crypto GET,
`raise_for_status`, `.json()` and assignment to `rates_btc_json`; then the
fiat fetch.  On the fixer path `request.json()['success']` is consulted
*before* `raise_for_status`, and a `False` flag makes the function reply
`'Sorry, something went wrong'` and return — with the crypto table already
replaced and the fiat table untouched. -/
def update_rates (st : CurrencyState) (now : Rat) (fixerKey : Option String)
    (cryptoResp : Option (HttpResp (List (String × Rat))))
    (fiatResp : Option (HttpResp FiatBody)) : URResult :=
  if isFresh st.rates_fiat_json now then ⟨st, [], 0, none⟩
  else
    match cryptoResp with
    | none => ⟨st, [], 1, some .requestException⟩
    | some cr =>
      if !cr.ok2xx then ⟨st, [], 1, some .requestException⟩
      else
        match cr.body with
        | none => ⟨st, [], 1, some .valueError⟩
        | some btcTbl =>
          let st1 : CurrencyState := { st with rates_btc_json := btcTbl }
          match fixerKey with
          | some _ =>
            match fiatResp with
            | none => ⟨st1, [], 2, some .requestException⟩
            | some fr =>
              match fr.body with
              | none => ⟨st1, [], 2, some .valueError⟩
              | some body =>
                match body.success with
                | none => ⟨st1, [], 2, some (.keyError "success")⟩
                | some false =>
                  match body.error with
                  | none => ⟨st1, [], 2, some (.keyError "error")⟩
                  | some _ => ⟨st1, ["Sorry, something went wrong"], 2, none⟩
                | some true => finishFiat st1 now fr
          | none =>
            match fiatResp with
            | none => ⟨st1, [], 2, some .requestException⟩
            | some fr => finishFiat st1 now fr

/-- Python `str.upper()` on the ASCII strings of this model, as a list map
(extensionally `String.toUpper`, but stated on the character list so that
idempotence is provable). -/
def pyUpper (s : String) : String :=
  String.mk (s.data.map Char.toUpper)

/-- Result of a rate lookup: the source returns either a float or the
unsupported-currency message string from the same function. -/
inductive RateResult where
  | num (q : Rat)
  | msg (s : String)
  deriving DecidableEq, Repr

/-- Lines 75–87: `btc_rate(code, reverse)`.  Looks up `'BTC' + code` in
`rates_btc_json`; absent keys yield the message string, a present key yields
the day-average (reciprocal if `reverse`). -/
def btc_rate (st : CurrencyState) (code : String) (reverse : Bool) :
    Except PyExc RateResult :=
  match dictGet st.rates_btc_json ("BTC" ++ code) with
  | none => .ok (.msg ("Sorry " ++ code ++ " isn't currently supported"))
  | some rate =>
    if reverse then (pyDiv 1 rate).map .num
    else .ok (.num rate)

/-- Lines 90–110: `get_rate(of, to)`.  Upper-cases both codes; routes any
`'BTC'` endpoint through `btc_rate`; otherwise checks both codes against
`rates_fiat_json['rates']` (`of` first) and converts through the EUR base.
Reading `['rates']` of a fiat dictionary without that key raises
`KeyError('rates')`; `1 / rates[of]` with a zero rate raises
`ZeroDivisionError`. -/
def get_rate (st : CurrencyState) (ofs tos : String) : Except PyExc RateResult :=
  let ofU := pyUpper ofs
  let toU := pyUpper tos
  if ofU = "BTC" ∨ toU = "BTC" then
    if ofU = "BTC" then btc_rate st toU false
    else btc_rate st ofU true
  else
    match st.rates_fiat_json.rates with
    | none => .error (.keyError "rates")
    | some tbl =>
      match dictGet tbl ofU with
      | none => .ok (.msg ("Sorry " ++ ofU ++ " isn't currently supported"))
      | some rof =>
        match dictGet tbl toU with
        | none => .ok (.msg ("Sorry " ++ toU ++ " isn't currently supported"))
        | some rto => (pyDiv 1 rof).map (fun inv => .num (inv * rto))

/-- ASCII fragment of Python's whitespace class (`\s`, `str.split()`). -/
def pyIsSpace (c : Char) : Bool :=
  c = ' ' || c = '\t' || c = '\n' || c = '\r' || c = '\x0b' || c = '\x0c'

/-- Worker for `str.split()`: the first argument is the current token,
accumulated in reverse. -/
def splitWsGo : List Char → List Char → List String
  | tok, [] => if tok.isEmpty then [] else [String.mk tok.reverse]
  | tok, c :: r =>
    if pyIsSpace c then
      if tok.isEmpty then splitWsGo [] r
      else String.mk tok.reverse :: splitWsGo [] r
    else splitWsGo (c :: tok) r

/-- Python `str.split()` with no argument: split on runs of whitespace,
discarding empty tokens. -/
def splitWs (s : String) : List String := splitWsGo [] s.data

/-- Numeric value of a digit string. -/
def natOfDigits (l : List Char) : Nat :=
  l.foldl (fun a c => a * 10 + (c.toNat - 48)) 0

/-- Python `float(str)` restricted to plain decimal literals
`[+-]?digits[.digits]` (either digit group may be empty but not both);
`none` models the `ValueError` raised for every other token the command can
see.  Exponents, `inf`/`nan` and surrounding whitespace — which never occur
in tokens produced by the trigger regex — are not modelled.  `float(str)`
never raises `OverflowError`, so the module's `except OverflowError` branch
is dead code and has no model. -/
def pyFloat (s : String) : Option Rat :=
  let l := s.data
  let (neg, l1) :=
    match l with
    | '-' :: r => (true, r)
    | '+' :: r => (false, r)
    | _ => (false, l)
  let (ds, l2) := l1.span Char.isDigit
  let (fs, l3) :=
    match l2 with
    | '.' :: r =>
      match r.span Char.isDigit with
      | (fsp, rp) => (some fsp, rp)
    | _ => (none, l2)
  if l3 ≠ [] then none
  else if ds = [] ∧ (fs = none ∨ fs = some []) then none
  else
    let frac : Rat :=
      match fs with
      | some f => (natOfDigits f : Rat) / ((10 : Rat) ^ f.length)
      | none => 0
    let v : Rat := (natOfDigits ds : Rat) + frac
    some (if neg then -v else v)

/-- Left-pad a digit string with zeros to the given width. -/
def padZeros (s : String) (k : Nat) : String :=
  String.mk (List.replicate (k - s.length) '0') ++ s

/-- Python `repr(float)` for the exact rationals of this model: integers print
as `n.0`, other finite decimals with the least number of fractional digits.
(The binary float's shortest round-trip repr is idealised by the exact decimal
expansion; rationals with no finite decimal expansion cannot arise from
`float(str)` and fall back to a fraction rendering.) -/
def pyFloatRepr (q : Rat) : String :=
  let sign := if q.num < 0 then "-" else ""
  let n := q.num.natAbs
  match (List.range (q.den + 1)).find? (fun k => (10 ^ k) % q.den = 0) with
  | some 0 => sign ++ toString n ++ ".0"
  | some (k + 1) =>
    let scaled := n * ((10 ^ (k + 1)) / q.den)
    sign ++ toString (scaled / 10 ^ (k + 1)) ++ "." ++
      padZeros (toString (scaled % 10 ^ (k + 1))) (k + 1)
  | none => sign ++ toString n ++ "/" ++ toString q.den

/-- Python `'{:.Nf}'.format(x)` on the exact rationals of this model: fixed
`prec` fractional digits, rounding half-up (an idealisation of float
formatting adequate for the reply strings in this development). -/
def formatFixed (prec : Nat) (q : Rat) : String :=
  let m : Int := (q * ((10 : Rat) ^ prec) + 1 / 2).floor
  let sign := if m < 0 then "-" else ""
  let a := m.natAbs
  sign ++ toString (a / 10 ^ prec) ++ "." ++ padZeros (toString (a % 10 ^ prec)) prec

/-- `'{} {} is'.format(amount, of.upper())`'s rendering of `amount`, which is
a float on the normal path but still the raw string after a parse failure. -/
def formatPy : PyVal → String
  | .num q => pyFloatRepr q
  | .str s => s

/-- Result of `build_reply`: the updated `out_string` (meaningful only when no
exception is raised), the replies sent, and the propagating exception. -/
structure BRResult where
  out : String
  replies : List String
  exc : Option PyExc
  deriving DecidableEq, Repr

/-- Lines 179–196: `build_reply(bot, amount, of, to, out_string)`.
A falsy amount first triggers the `"Zero is zero…"` reply.  `get_rate`'s
message result makes `float(rate_raw)` raise `ValueError`, which is replied
verbatim and re-raised; its numeric result is multiplied by `amount`
(a `TypeError` when `amount` is still a string); the formatted conversion is
appended with 5 decimals for BTC targets and 2 otherwise.  Exceptions raised
inside `get_rate` pass through untouched. -/
def build_reply (st : CurrencyState) (amount : PyVal) (ofU toU : String)
    (out : String) : BRResult :=
  let zreplies : List String :=
    if pyFalsy amount then ["Zero is zero, no matter what country you're in."] else []
  match get_rate st ofU toU with
  | .error e => ⟨out, zreplies, some e⟩
  | .ok (.msg s) => ⟨out, zreplies ++ [s], some .valueError⟩
  | .ok (.num rate) =>
    match amount with
    | .str _ => ⟨out, zreplies, some .typeError⟩
    | .num a =>
      let result := rate * a
      if toU = "BTC" then
        ⟨out ++ " " ++ formatFixed 5 result ++ " " ++ toU ++ ",", zreplies, none⟩
      else
        ⟨out ++ " " ++ formatFixed 2 result ++ " " ++ toU ++ ",", zreplies, none⟩

/-- Result of `exchange`: final globals, replies in order, and the exception
escaping the handler, if any. -/
structure ExchResult where
  state : CurrencyState
  replies : List String
  exc : Option PyExc
  deriving DecidableEq, Repr

/-- Lines 147–158: the `for to in others` loop of `exchange` followed by the
final `bot.reply(out_string[0:-1])`.  A `ValueError` from `build_reply` is
swallowed (`return NOLIMIT`) — by then the unsupported-currency message has
already been replied.  The `except (HTTPError, ConnectionError)` arm is
unreachable (`build_reply` performs no requests) and has no model.  Any other
exception propagates. -/
def exchangeLoop (st : CurrencyState) (amount : PyVal) (ofU : String)
    (targets : List String) (out : String) (acc : List String) : ExchResult :=
  match targets with
  | [] => ⟨st, acc ++ [out.dropRight 1], none⟩
  | t :: rest =>
    let br := build_reply st amount ofU (pyUpper t) out
    match br.exc with
    | none => exchangeLoop st amount ofU rest br.out (acc ++ br.replies)
    | some .valueError => ⟨st, acc ++ br.replies, none⟩
    | some e => ⟨st, acc ++ br.replies, some e⟩

/-- Lines 113–158: `exchange(bot, match)`.  `minput` is `none` when the
trigger regex did not match, else the matched string (`match.string`).
`update_rates` runs under `except RequestException` / `except ValueError`;
any other exception it raises propagates.  The matched string is then
whitespace-split, the first two tokens popped as amount and source and the
third (the preposition) discarded; `float(amount)` failure is replied but the
function *continues* with the string amount; finally each remaining token is
converted via `build_reply`. -/
def exchange (st : CurrencyState) (now : Rat) (fixerKey : Option String)
    (cryptoResp : Option (HttpResp (List (String × Rat))))
    (fiatResp : Option (HttpResp FiatBody))
    (minput : Option String) : ExchResult :=
  match minput with
  | none => ⟨st, ["Sorry, I didn't understand the input."], none⟩
  | some q =>
    let ur := update_rates st now fixerKey cryptoResp fiatResp
    match ur.exc with
    | some .requestException =>
      ⟨ur.state, ur.replies ++ ["Something went wrong while I was getting the exchange rate."], none⟩
    | some .valueError => ⟨ur.state, ur.replies ++ ["Error: Got malformed data."], none⟩
    | some e => ⟨ur.state, ur.replies, some e⟩
    | none =>
      match splitWs q with
      | t0 :: t1 :: _ :: rest =>
        match pyFloat t0 with
        | some v =>
          exchangeLoop ur.state (.num v) (pyUpper t1) rest
            (pyFloatRepr v ++ " " ++ pyUpper t1 ++ " is") ur.replies
        | none =>
          exchangeLoop ur.state (.str t0) (pyUpper t1) rest
            (t0 ++ " " ++ pyUpper t1 ++ " is")
            (ur.replies ++ ["Sorry, I didn't understand the input."])
      | _ => ⟨ur.state, ur.replies, some .indexError⟩

/-- Python's `$` anchor: matches at the end of the string or just before a
single newline at the end of the string. -/
def atEnd : List Char → Bool
  | [] => true
  | ['\n'] => true
  | _ => false

/-- The tail of `EXCHANGE_REGEX` (line 22 of the source):
`(([a-zA-Z]{3}$)|([a-zA-Z]{3})\s)+$` — one or more elements, each a 3-letter
code that either sits at the anchor or is followed by one whitespace
character, then the anchor.  Operationally: a 3-letter code, then either the
anchor, or a single whitespace followed by the anchor or further elements. -/
def matchTargets : List Char → Bool
  | a :: b :: c :: rest =>
    (a.isAlpha && b.isAlpha && c.isAlpha) &&
      (atEnd rest ||
        (match rest with
         | d :: rest2 => pyIsSpace d && (atEnd rest2 || matchTargets rest2)
         | [] => false))
  | _ => false

/-- `\d+` / the integer digits of `<decimal-number>`: consume one or more
digits, `none` if there are none. -/
def chompDigits1 (l : List Char) : Option (List Char) :=
  match l.span Char.isDigit with
  | (ds, r) => if ds.isEmpty then none else some r

/-- `(?:\.\d+)?` / the optional fractional part of `<decimal-number>`:
consumed when wholly present, otherwise left in place.  (Greedily consuming
it is faithful: when `.digits` is present but the rest of the pattern then
fails, the backtracking alternative starts at `'.'`, which no later piece of
the pattern can match.) -/
def chompFracOpt (l : List Char) : List Char :=
  match l with
  | '.' :: r =>
    match r.span Char.isDigit with
    | (ds, rp) => if ds.isEmpty then l else rp
  | _ => l

/-- `\s+` / `<space>+`: one or more whitespace characters. -/
def chompWs1 (l : List Char) : Option (List Char) :=
  match l.span pyIsSpace with
  | (ws, r) => if ws.isEmpty then none else some r

/-- `[a-zA-Z]{3}` / `<3-letters>`: exactly three alphabetic characters. -/
def chompCode (l : List Char) : Option (List Char) :=
  match l with
  | a :: b :: c :: r => if a.isAlpha && b.isAlpha && c.isAlpha then some r else none
  | _ => none

/-- `(?:in|as|of|to)` as the source's pattern matches it: the alternatives are
lowercase literals and `EXCHANGE_REGEX` is compiled without `re.IGNORECASE`. -/
def chompPrepLower (l : List Char) : Option (List Char) :=
  match l with
  | p :: q :: r =>
    if (p = 'i' && q = 'n') || (p = 'a' && q = 's') ||
        (p = 'o' && q = 'f') || (p = 't' && q = 'o') then some r else none
  | _ => none

/-- Lines 18–23: whether `EXCHANGE_REGEX.match(s)` succeeds.  The pattern
(with `re.VERBOSE`) is
`^(\d+(?:\.\d+)?)\s*([a-zA-Z]{3})\s+(?:in|as|of|to)\s+(([a-zA-Z]{3}$)|([a-zA-Z]{3})\s)+$`.
Each greedy step is deterministic because the character classes of adjacent
pieces are disjoint, so the model consumes greedily with no backtracking. -/
def EXCHANGE_REGEX_match (s : String) : Bool :=
  match chompDigits1 s.data with
  | none => false
  | some r1 =>
    match chompCode ((chompFracOpt r1).dropWhile pyIsSpace) with
    | none => false
    | some r3 =>
      match chompWs1 r3 with
      | none => false
      | some r4 =>
        match chompPrepLower r4 with
        | none => false
        | some r5 =>
          match chompWs1 r5 with
          | none => false
          | some r6 => matchTargets r6

/-- The decomposition the command performs on a matched string
(lines 130–135, 146, 149 composed with the trigger regex): whitespace-split,
pop amount / source / preposition, upper-case the source and targets, parse
the amount with `float` (`none` inside the triple = the parse failed). -/
def parseQuery (s : String) : Option (Option Rat × String × List String) :=
  if EXCHANGE_REGEX_match s then
    match splitWs s with
    | t0 :: t1 :: _ :: rest => some (pyFloat t0, pyUpper t1, rest.map pyUpper)
    | _ => none
  else none

/-- Modelled from the spec: the claimed preposition `(in|as|of|to)` of the
case-insensitive grammar. -/
def chompPrepCI (l : List Char) : Option (List Char) :=
  match l with
  | p :: q :: r =>
    if (p.toLower = 'i' && q.toLower = 'n') || (p.toLower = 'a' && q.toLower = 's') ||
        (p.toLower = 'o' && q.toLower = 'f') || (p.toLower = 't' && q.toLower = 'o')
    then some r else none
  | _ => none

/-- Modelled from the spec: the claimed target-list production
`(<3-letters><space>)*<3-letters>$` with `$` read as the strict end of the
string — targets separated by single whitespace characters, the last one
flush against the end. -/
def specTargetsCI : List Char → Bool
  | a :: b :: c :: rest =>
    (a.isAlpha && b.isAlpha && c.isAlpha) &&
      (rest.isEmpty ||
        (match rest with
         | d :: r2 => pyIsSpace d && specTargetsCI r2
         | [] => false))
  | _ => false

/-- Modelled from the spec: the grammar stated by the claim, read literally —
`<decimal-number><optional-space><3-letters><space>+(in|as|of|to)<space>+`
`(<3-letters><space>)*<3-letters>$`, case-insensitive, with `<space>` a
single whitespace character, `<optional-space>` zero or more of them, and
`$` the strict end of the string. -/
def specGrammarCI (s : String) : Bool :=
  match chompDigits1 s.data with
  | none => false
  | some r1 =>
    match chompCode ((chompFracOpt r1).dropWhile pyIsSpace) with
    | none => false
    | some r3 =>
      match chompWs1 r3 with
      | none => false
      | some r4 =>
        match chompPrepCI r4 with
        | none => false
        | some r5 =>
          match chompWs1 r5 with
          | none => false
          | some r6 => specTargetsCI r6

/-- The amended target-list production, in the grammar's star form:
`(<3-letters><space>)*<3-letters><space>?` with the end anchored as Python's
`$` (end of string, or just before one final newline). -/
def specTargetsAmended : List Char → Bool
  | a :: b :: c :: rest =>
    (a.isAlpha && b.isAlpha && c.isAlpha) &&
      (atEnd rest ||
        (match rest with
         | d :: r2 => pyIsSpace d && (atEnd r2 || specTargetsAmended r2)
         | [] => false))
  | _ => false

/-- Modelled from the spec, amended: the claimed grammar with the three
corrections the source forces — the preposition is matched case-sensitively
(lowercase only), a single trailing whitespace after the last target is
accepted, and the end anchor also matches just before one final newline. -/
def specGrammarAmended (s : String) : Bool :=
  match chompDigits1 s.data with
  | none => false
  | some r1 =>
    match chompCode ((chompFracOpt r1).dropWhile pyIsSpace) with
    | none => false
    | some r3 =>
      match chompWs1 r3 with
      | none => false
      | some r4 =>
        match chompPrepLower r4 with
        | none => false
        | some r5 =>
          match chompWs1 r5 with
          | none => false
          | some r6 => specTargetsAmended r6

/-! ## Helper lemmas -/

/-- `Char.toUpper` is idempotent. -/
theorem char_toUpper_idem (c : Char) : c.toUpper.toUpper = c.toUpper := by
  have he : ∀ x : Char, x.toUpper =
      if x.toNat ≥ 97 ∧ x.toNat ≤ 122 then Char.ofNat (x.toNat - 32) else x := fun _ => rfl
  rw [he c]
  by_cases h : c.toNat ≥ 97 ∧ c.toNat ≤ 122
  · rw [if_pos h, he]
    obtain ⟨h1, h2⟩ := h
    have hval : (Char.ofNat (c.toNat - 32)).toNat = c.toNat - 32 := by
      set n := c.toNat with hn
      interval_cases n <;> decide
    rw [if_neg (by omega)]
  · rw [if_neg h, he, if_neg h]

/-- `pyUpper` is idempotent. -/
theorem pyUpper_idem (s : String) : pyUpper (pyUpper s) = pyUpper s := by
  have h : Char.toUpper ∘ Char.toUpper = Char.toUpper := funext char_toUpper_idem
  unfold pyUpper
  simp [List.map_map, h]

/-- A fresh store short-circuits `update_rates`: nothing is fetched and
nothing changes. -/
theorem update_rates_fresh (st : CurrencyState) (now : Rat) (k : Option String)
    (cr : Option (HttpResp (List (String × Rat)))) (fr : Option (HttpResp FiatBody))
    (h : isFresh st.rates_fiat_json now = true) :
    update_rates st now k cr fr = ⟨st, [], 0, none⟩ := by
  unfold update_rates
  simp [h]

/-- Writing a key into a dictionary makes it readable. -/
theorem dictGet_dictSet_self (l : List (String × Rat)) (k : String) (v : Rat) :
    dictGet (dictSet l k v) k = some v := by
  induction l with
  | nil => simp [dictSet, dictGet]
  | cons p rest ih =>
    rcases p with ⟨k0, v0⟩
    by_cases h : k0 = k <;> simp [dictSet, dictGet, h, ih]

/-- `get_rate` never raises `ValueError` itself (its exceptions are
`KeyError` and `ZeroDivisionError`). -/
theorem get_rate_ne_valueError (st : CurrencyState) (a b : String) :
    get_rate st a b ≠ .error .valueError := by
  unfold get_rate btc_rate
  by_cases hbtc : pyUpper a = "BTC" ∨ pyUpper b = "BTC"
  · simp only [hbtc, if_true]
    by_cases ha : pyUpper a = "BTC"
    · simp only [ha, if_true]
      cases dictGet st.rates_btc_json ("BTC" ++ pyUpper b) <;> simp
    · simp only [ha, if_false]
      cases hk : dictGet st.rates_btc_json ("BTC" ++ pyUpper a) with
      | none => simp [hk]
      | some rate =>
        simp only [hk]
        unfold pyDiv
        by_cases hr : rate = 0 <;> simp [hr, Except.map]
  · simp only [hbtc, if_false]
    cases hrt : st.rates_fiat_json.rates with
    | none => simp
    | some tbl =>
      cases hra : dictGet tbl (pyUpper a) with
      | none => simp [hra]
      | some rof =>
        cases hrb : dictGet tbl (pyUpper b) with
        | none => simp [hra, hrb]
        | some rto =>
          simp only [hra, hrb]
          unfold pyDiv
          by_cases hr : rof = 0 <;> simp [hr, Except.map]

/-- When `build_reply` raises `ValueError`, it has already replied the
unsupported-currency message. -/
theorem build_reply_valueError_replies (st : CurrencyState) (amount : PyVal)
    (ofU toU out : String)
    (h : (build_reply st amount ofU toU out).exc = some .valueError) :
    1 ≤ (build_reply st amount ofU toU out).replies.length := by
  unfold build_reply at *
  cases hgr : get_rate st ofU toU with
  | error e =>
    simp only [hgr] at h
    injection h with h
    exact absurd (h ▸ hgr) (get_rate_ne_valueError st ofU toU)
  | ok r =>
    cases r with
    | msg s => simp [hgr]
    | num rate =>
      simp only [hgr] at h
      cases amount with
      | str s => simp at h
      | num a => by_cases hb : toU = "BTC" <;> simp [hb] at h

/-- Whenever the target loop terminates without an escaping exception it has
sent at least one reply (the final `bot.reply(out_string[0:-1])`, or the
unsupported-currency message preceding a swallowed `ValueError`). -/
theorem exchangeLoop_replies_len (st : CurrencyState) (amount : PyVal) (ofU : String) :
    ∀ (targets : List String) (out : String) (acc : List String),
      (exchangeLoop st amount ofU targets out acc).exc = none →
      1 ≤ (exchangeLoop st amount ofU targets out acc).replies.length := by
  intro targets
  induction targets with
  | nil => intro out acc _; simp [exchangeLoop]
  | cons t rest ih =>
    intro out acc h
    unfold exchangeLoop at h ⊢
    cases hbr : (build_reply st amount ofU (pyUpper t) out).exc with
    | none =>
      simp only [hbr] at h ⊢
      exact ih _ _ h
    | some e =>
      cases e with
      | valueError =>
        have hb := build_reply_valueError_replies st amount ofU (pyUpper t) out hbr
        simp only [hbr, List.length_append]
        omega
      | requestException => simp [hbr] at h
      | keyError k => simp [hbr] at h
      | typeError => simp [hbr] at h
      | zeroDivisionError => simp [hbr] at h
      | indexError => simp [hbr] at h

/-- The successful EUR/EUR lookup on a table carrying the base entry. -/
theorem get_rate_eur_one (st : CurrencyState) (tbl : List (String × Rat))
    (h : st.rates_fiat_json.rates = some tbl) (h1 : dictGet tbl "EUR" = some 1) :
    get_rate st "EUR" "EUR" = .ok (.num 1) := by
  simp only [get_rate, show pyUpper "EUR" = "EUR" from rfl]
  norm_num [h, h1, pyDiv]
  simp [Except.map]

/-- Fiat branch of `get_rate`: missing source code. -/
theorem get_rate_of_missing (st : CurrencyState) (tbl : List (String × Rat)) (ofs tos : String)
    (hrt : st.rates_fiat_json.rates = some tbl)
    (h1 : pyUpper ofs ≠ "BTC") (h2 : pyUpper tos ≠ "BTC")
    (hn : dictGet tbl (pyUpper ofs) = none) :
    get_rate st ofs tos = .ok (.msg ("Sorry " ++ pyUpper ofs ++ " isn't currently supported")) := by
  simp [get_rate, h1, h2, hrt, hn]

/-- Fiat branch of `get_rate`: source present, target missing. -/
theorem get_rate_to_missing (st : CurrencyState) (tbl : List (String × Rat)) (ofs tos : String)
    (u : Rat) (hrt : st.rates_fiat_json.rates = some tbl)
    (h1 : pyUpper ofs ≠ "BTC") (h2 : pyUpper tos ≠ "BTC")
    (hu : dictGet tbl (pyUpper ofs) = some u)
    (hn : dictGet tbl (pyUpper tos) = none) :
    get_rate st ofs tos = .ok (.msg ("Sorry " ++ pyUpper tos ++ " isn't currently supported")) := by
  simp [get_rate, h1, h2, hrt, hu, hn]

/-- Fiat branch of `get_rate`: both codes present, conversion through the
EUR base. -/
theorem get_rate_fiat_num (st : CurrencyState) (tbl : List (String × Rat)) (ofs tos : String)
    (rof rto : Rat) (hrt : st.rates_fiat_json.rates = some tbl)
    (h1 : pyUpper ofs ≠ "BTC") (h2 : pyUpper tos ≠ "BTC")
    (ho : dictGet tbl (pyUpper ofs) = some rof) (hnz : rof ≠ 0)
    (ht : dictGet tbl (pyUpper tos) = some rto) :
    get_rate st ofs tos = .ok (.num ((1 / rof) * rto)) := by
  simp [get_rate, h1, h2, hrt, ho, ht, pyDiv, hnz, Except.map]

/-- The regex tail `(([a-zA-Z]{3}$)|([a-zA-Z]{3})\s)+$` accepts exactly the
amended star-form target production. -/
theorem matchTargets_eq_specTargetsAmended : ∀ l, matchTargets l = specTargetsAmended l
  | [] => rfl
  | [_] => rfl
  | [_, _] => rfl
  | [_, _, _] => rfl
  | a :: b :: c :: d :: r2 => by
    simp only [matchTargets, specTargetsAmended]
    rw [matchTargets_eq_specTargetsAmended r2]

/-- The source trigger regex accepts exactly the amended grammar. -/
theorem regex_eq_specAmended (s : String) : EXCHANGE_REGEX_match s = specGrammarAmended s := by
  unfold EXCHANGE_REGEX_match specGrammarAmended
  cases chompDigits1 s.data with
  | none => rfl
  | some r1 =>
    dsimp only
    cases chompCode ((chompFracOpt r1).dropWhile pyIsSpace) with
    | none => rfl
    | some r3 =>
      dsimp only
      cases chompWs1 r3 with
      | none => rfl
      | some r4 =>
        dsimp only
        cases chompPrepLower r4 with
        | none => rfl
        | some r5 =>
          dsimp only
          cases chompWs1 r5 with
          | none => rfl
          | some r6 => exact matchTargets_eq_specTargetsAmended r6

/-! ## Claim theorems -/

/-- C1 (evidence of the code bug): refresh is *not* all-or-nothing.  On a
stale store, a successful crypto fetch followed by a failing fiat fetch
leaves the new crypto table `[("BTCUSD", 7)]` paired with the old fiat table
while the escaping `RequestException` aborts the refresh — the crypto half
has been replaced even though the fiat half (and the timestamp) were not. -/
theorem update_rates_partial_update :
    update_rates ⟨⟨some 0, some [("EUR", 1), ("USD", 2)]⟩, [("BTCUSD", 5)]⟩ 200000 none
        (some ⟨true, some [("BTCUSD", 7)]⟩) none =
      ⟨⟨⟨some 0, some [("EUR", 1), ("USD", 2)]⟩, [("BTCUSD", 7)]⟩, [], 2,
        some .requestException⟩ ∧
    ([("BTCUSD", 7)] : List (String × Rat)) ≠ [("BTCUSD", 5)] := by
  with_unfolding_all decide

/-- C2 (evidence of the code bug): an exception can escape the command
boundary.  With an empty store and a fixer.io key, a provider rejection makes
`update_rates` reply and return without populating the fiat table; the
subsequent `get_rate` lookup then raises `KeyError('rates')`, which none of
`exchange`'s handlers catch. -/
theorem exchange_uncaught_keyerror :
    exchange ⟨⟨none, none⟩, []⟩ 0 (some "KEY") (some ⟨true, some [("BTCUSD", 9000)]⟩)
        (some ⟨true, some ⟨some false, some "invalid key", none⟩⟩) (some "100 usd in eur") =
      ⟨⟨⟨none, none⟩, [("BTCUSD", 9000)]⟩, ["Sorry, something went wrong"],
        some (.keyError "rates")⟩ := by
  with_unfolding_all rfl

/-- C3 (counterexample): the command does not always emit exactly one reply.
On the matched input `"0 usd in eur"` with a fresh store, `build_reply` first
sends the `"Zero is zero…"` message and `exchange` still sends the final
conversion reply — two replies in one invocation. -/
theorem exchange_two_replies :
    (exchange ⟨⟨some 0, some [("EUR", 1), ("USD", 2)]⟩, []⟩ 100 none none none
        (some "0 usd in eur")).replies =
      ["Zero is zero, no matter what country you're in.", "0.0 USD is 0.00 EUR"] ∧
    (exchange ⟨⟨some 0, some [("EUR", 1), ("USD", 2)]⟩, []⟩ 100 none none none
        (some "0 usd in eur")).replies.length ≠ 1 := by
  with_unfolding_all decide

/-- C3 (amended): for every input (a regex match or not) and every store
state, an invocation of `exchange` that terminates without a propagating
exception emits at least one reply — it is never silent — though some paths
(zero amount, amount-parse failure, fixer rejection followed by a usable old
table) emit more than one. -/
theorem exchange_at_least_one_reply
    (st : CurrencyState) (now : Rat) (fixerKey : Option String)
    (cr : Option (HttpResp (List (String × Rat)))) (fr : Option (HttpResp FiatBody))
    (minput : Option String)
    (h : (exchange st now fixerKey cr fr minput).exc = none) :
    1 ≤ (exchange st now fixerKey cr fr minput).replies.length := by
  unfold exchange at h ⊢
  cases minput with
  | none => simp
  | some q =>
    cases hue : (update_rates st now fixerKey cr fr).exc with
    | some e =>
      cases e with
      | requestException =>
        simp only [hue, List.length_append, List.length_cons, List.length_nil]
        omega
      | valueError =>
        simp only [hue, List.length_append, List.length_cons, List.length_nil]
        omega
      | keyError k => simp [hue] at h
      | typeError => simp [hue] at h
      | zeroDivisionError => simp [hue] at h
      | indexError => simp [hue] at h
    | none =>
      simp only [hue] at h ⊢
      rcases hsp : splitWs q with _ | ⟨t0, _ | ⟨t1, _ | ⟨t2, rest⟩⟩⟩
      · simp [hsp] at h
      · simp [hsp] at h
      · simp [hsp] at h
      · simp only [hsp] at h ⊢
        cases hpf : pyFloat t0 with
        | some v =>
          simp only [hpf] at h ⊢
          exact exchangeLoop_replies_len _ _ _ _ _ _ h
        | none =>
          simp only [hpf] at h ⊢
          exact exchangeLoop_replies_len _ _ _ _ _ _ h

/-- Witness for C3's amended theorem at a concrete input. -/
theorem exchange_at_least_one_reply_witness :
    (exchange ⟨⟨some 0, some [("EUR", 1), ("USD", 2)]⟩, []⟩ 50 none none none
        (some "5 usd in eur")).exc = none ∧
    1 ≤ (exchange ⟨⟨some 0, some [("EUR", 1), ("USD", 2)]⟩, []⟩ 50 none none none
        (some "5 usd in eur")).replies.length :=
  ⟨by with_unfolding_all rfl,
    exchange_at_least_one_reply _ _ _ _ _ _ (by with_unfolding_all rfl)⟩

/-- C4: for codes neither of which upper-cases to `BTC`, against a present
fiat table, `get_rate` reports the (upper-cased) source code as unsupported
when it is absent — checked before the target — then the target code when it
is absent, and otherwise returns exactly `(1 / fiatRates[of]) * fiatRates[to]`
(the source raises `ZeroDivisionError` instead when `fiatRates[of] = 0`,
whence the nonzero hypothesis presupposed by the quotient). -/
theorem get_rate_fiat_spec :
    ∀ (st : CurrencyState) (tbl : List (String × Rat)) (ofs tos : String),
      st.rates_fiat_json.rates = some tbl →
      pyUpper ofs ≠ "BTC" → pyUpper tos ≠ "BTC" →
      ((dictGet tbl (pyUpper ofs) = none →
          get_rate st ofs tos =
            .ok (.msg ("Sorry " ++ pyUpper ofs ++ " isn't currently supported"))) ∧
        (∀ rof, dictGet tbl (pyUpper ofs) = some rof → dictGet tbl (pyUpper tos) = none →
          get_rate st ofs tos =
            .ok (.msg ("Sorry " ++ pyUpper tos ++ " isn't currently supported"))) ∧
        (∀ rof rto, dictGet tbl (pyUpper ofs) = some rof → rof ≠ 0 →
          dictGet tbl (pyUpper tos) = some rto →
          get_rate st ofs tos = .ok (.num ((1 / rof) * rto)))) := by
  intro st tbl ofs tos hrt h1 h2
  exact ⟨fun hn => get_rate_of_missing st tbl ofs tos hrt h1 h2 hn,
    fun rof ho hn => get_rate_to_missing st tbl ofs tos rof hrt h1 h2 ho hn,
    fun rof rto ho hnz ht => get_rate_fiat_num st tbl ofs tos rof rto hrt h1 h2 ho hnz ht⟩

/-- Witness for C4 at a concrete table. -/
theorem get_rate_fiat_spec_witness :
    get_rate ⟨⟨some 0, some [("USD", 2), ("EUR", 1)]⟩, []⟩ "usd" "eur" =
      .ok (.num ((1 / 2) * 1)) ∧
    get_rate ⟨⟨some 0, some [("USD", 2), ("EUR", 1)]⟩, []⟩ "usd" "xxx" =
      .ok (.msg ("Sorry " ++ pyUpper "xxx" ++ " isn't currently supported")) :=
  ⟨((get_rate_fiat_spec _ [("USD", 2), ("EUR", 1)] "usd" "eur" rfl (by decide) (by decide)).2.2)
      2 1 rfl (by norm_num) rfl,
    ((get_rate_fiat_spec _ [("USD", 2), ("EUR", 1)] "usd" "xxx" rfl (by decide) (by decide)).2.1)
      2 rfl rfl⟩

/-- C5 (counterexample): on targets `[XYZ, EUR]` with `XYZ` absent the command
replies exactly one message and EUR is never converted, but the message is
`"Sorry XYZ isn't currently supported"` — without the comma after `Sorry`
that the claim's quoted string carries. -/
theorem unsupported_reply_no_comma :
    exchange ⟨⟨some 0, some [("EUR", 1), ("USD", 2)]⟩, []⟩ 100 none none none
        (some "100 usd in xyz eur") =
      ⟨⟨⟨some 0, some [("EUR", 1), ("USD", 2)]⟩, []⟩,
        ["Sorry XYZ isn't currently supported"], none⟩ ∧
    ("Sorry XYZ isn't currently supported" : String) ≠
      "Sorry, XYZ isn't currently supported" := by
  with_unfolding_all decide

/-- C5 (amended): with a fresh store, a nonzero parsed amount and a supported
source code, the first target absent from the fiat table makes the command
reply exactly the single string `"Sorry <CODE> isn't currently supported"`
(no comma after `Sorry`), and no conversion for any later target is computed:
the result does not depend on `rest` at all. -/
theorem unsupported_short_circuit :
    ∀ (st : CurrencyState) (now : Rat) (k : Option String)
      (cr : Option (HttpResp (List (String × Rat)))) (fr : Option (HttpResp FiatBody))
      (raw t0 t1 tp tgt : String) (rest : List String) (tbl : List (String × Rat)) (a u : Rat),
      isFresh st.rates_fiat_json now = true →
      splitWs raw = t0 :: t1 :: tp :: tgt :: rest →
      pyFloat t0 = some a → a ≠ 0 →
      st.rates_fiat_json.rates = some tbl →
      pyUpper t1 ≠ "BTC" → pyUpper tgt ≠ "BTC" →
      dictGet tbl (pyUpper t1) = some u →
      dictGet tbl (pyUpper tgt) = none →
      exchange st now k cr fr (some raw) =
        ⟨st, ["Sorry " ++ pyUpper tgt ++ " isn't currently supported"], none⟩ := by
  intro st now k cr fr raw t0 t1 tp tgt rest tbl a u hfr hsp hpf ha hrt h1 h2 hu hn
  unfold exchange
  rw [update_rates_fresh st now k cr fr hfr]
  simp only [hsp, hpf]
  unfold exchangeLoop
  have hbr : build_reply st (.num a) (pyUpper t1) (pyUpper tgt)
      (pyFloatRepr a ++ " " ++ pyUpper t1 ++ " is") =
      ⟨pyFloatRepr a ++ " " ++ pyUpper t1 ++ " is",
        ["Sorry " ++ pyUpper tgt ++ " isn't currently supported"], some .valueError⟩ := by
    have hgr : get_rate st (pyUpper t1) (pyUpper tgt) =
        .ok (.msg ("Sorry " ++ pyUpper tgt ++ " isn't currently supported")) := by
      have := get_rate_to_missing st tbl (pyUpper t1) (pyUpper tgt) u hrt
        (by rw [pyUpper_idem]; exact h1) (by rw [pyUpper_idem]; exact h2)
        (by rw [pyUpper_idem]; exact hu) (by rw [pyUpper_idem]; exact hn)
      rw [this, pyUpper_idem]
    simp [build_reply, hgr, pyFalsy, ha]
  simp [hbr]

/-- Witness for C5's amended theorem at a concrete input with a later target. -/
theorem unsupported_short_circuit_witness :
    exchange ⟨⟨some 10, some [("EUR", 1), ("USD", 2), ("GBP", 3)]⟩, []⟩ 20 none none none
        (some "250 usd in xyz gbp") =
      ⟨⟨⟨some 10, some [("EUR", 1), ("USD", 2), ("GBP", 3)]⟩, []⟩,
        ["Sorry " ++ pyUpper "xyz" ++ " isn't currently supported"], none⟩ :=
  unsupported_short_circuit _ 20 none none none "250 usd in xyz gbp" "250" "usd" "in" "xyz"
    ["gbp"] _ 250 2 (by with_unfolding_all decide) (by with_unfolding_all rfl)
    (by with_unfolding_all rfl) (by norm_num) rfl (by decide) (by decide)
    (by with_unfolding_all rfl) (by with_unfolding_all rfl)

/-- C6: rates are mutually inverse in exact arithmetic.  For codes (neither
upper-casing to `BTC`) held in the fiat table with nonzero rates,
`get_rate a b * get_rate b a = 1`; and with a nonzero `BTCUSD` day-average,
`get_rate BTC USD = 1 / get_rate USD BTC`. -/
theorem get_rate_inverse :
    (∀ (st : CurrencyState) (tbl : List (String × Rat)) (a b : String) (ra rb : Rat),
        st.rates_fiat_json.rates = some tbl →
        pyUpper a ≠ "BTC" → pyUpper b ≠ "BTC" →
        dictGet tbl (pyUpper a) = some ra → ra ≠ 0 →
        dictGet tbl (pyUpper b) = some rb → rb ≠ 0 →
        ∃ x y, get_rate st a b = .ok (.num x) ∧ get_rate st b a = .ok (.num y) ∧ x * y = 1) ∧
    (∀ (st : CurrencyState) (r : Rat),
        dictGet st.rates_btc_json "BTCUSD" = some r → r ≠ 0 →
        ∃ x y, get_rate st "BTC" "USD" = .ok (.num x) ∧
          get_rate st "USD" "BTC" = .ok (.num y) ∧ x = 1 / y) := by
  constructor
  · intro st tbl a b ra rb hrt ha hb hga hra hgb hrb
    refine ⟨(1 / ra) * rb, (1 / rb) * ra,
      get_rate_fiat_num st tbl a b ra rb hrt ha hb hga hra hgb,
      get_rate_fiat_num st tbl b a rb ra hrt hb ha hgb hrb hga, ?_⟩
    field_simp
  · intro st r h hr
    refine ⟨r, 1 / r, ?_, ?_, (one_div_one_div r).symm⟩
    · simp [get_rate, btc_rate, show pyUpper "BTC" = "BTC" from rfl,
        show pyUpper "USD" = "USD" from rfl, show ("BTC" ++ "USD" : String) = "BTCUSD" from rfl, h]
    · simp [get_rate, btc_rate, show pyUpper "BTC" = "BTC" from rfl,
        show pyUpper "USD" = "USD" from rfl, show ("BTC" ++ "USD" : String) = "BTCUSD" from rfl,
        h, pyDiv, hr, Except.map]

/-- Witness for C6 at a concrete store. -/
theorem get_rate_inverse_witness :
    (∃ x y, get_rate ⟨⟨some 0, some [("USD", 2), ("EUR", 1)]⟩, [("BTCUSD", 5)]⟩ "usd" "eur" =
          .ok (.num x) ∧
        get_rate ⟨⟨some 0, some [("USD", 2), ("EUR", 1)]⟩, [("BTCUSD", 5)]⟩ "eur" "usd" =
          .ok (.num y) ∧
        x * y = 1) ∧
    (∃ x y, get_rate ⟨⟨some 0, some [("USD", 2), ("EUR", 1)]⟩, [("BTCUSD", 5)]⟩ "BTC" "USD" =
          .ok (.num x) ∧
        get_rate ⟨⟨some 0, some [("USD", 2), ("EUR", 1)]⟩, [("BTCUSD", 5)]⟩ "USD" "BTC" =
          .ok (.num y) ∧
        x = 1 / y) :=
  ⟨get_rate_inverse.1 _ [("USD", 2), ("EUR", 1)] "usd" "eur" 2 1 rfl (by decide) (by decide)
      rfl (by norm_num) rfl (by norm_num),
    get_rate_inverse.2 _ 5 rfl (by norm_num)⟩

/-- C7: the 24-hour cache gates all fetching.  A snapshot is fresh iff its
`'date'` entry exists and `now - fetchedAt < 24h` (so 25h-old data are stale
and 23h-old data fresh), and a refresh on a fresh store returns immediately —
zero `requests.get` calls, no replies, state unchanged — for every possible
fetch outcome. -/
theorem freshness_gate :
    (∀ (fi : FiatJson) (now : Rat),
        isFresh fi now = true ↔ ∃ d, fi.date = some d ∧ now - d < 24 * 60 * 60) ∧
    (isFresh ⟨some 0, none⟩ (25 * 3600) = false ∧ isFresh ⟨some 0, none⟩ (23 * 3600) = true) ∧
    (∀ (st : CurrencyState) (now : Rat) (k : Option String)
        (cr : Option (HttpResp (List (String × Rat)))) (fr : Option (HttpResp FiatBody)),
        isFresh st.rates_fiat_json now = true →
        update_rates st now k cr fr = ⟨st, [], 0, none⟩) := by
  refine ⟨?_, ⟨?_, ?_⟩, ?_⟩
  · intro fi now
    unfold isFresh
    cases fi.date with
    | none => simp
    | some d => simp
  · with_unfolding_all decide
  · with_unfolding_all decide
  · exact update_rates_fresh

/-- Witness for C7: a fresh store ignores even well-formed fetch outcomes. -/
theorem freshness_gate_witness :
    isFresh (⟨some 0, some [("EUR", 1)]⟩ : FiatJson) 100 = true ∧
    update_rates ⟨⟨some 0, some [("EUR", 1)]⟩, [("BTCEUR", 3)]⟩ 100 (some "K")
        (some ⟨true, some [("BTCUSD", 8)]⟩)
        (some ⟨true, some ⟨some true, none, some [("USD", 9)]⟩⟩) =
      ⟨⟨⟨some 0, some [("EUR", 1)]⟩, [("BTCEUR", 3)]⟩, [], 0, none⟩ :=
  ⟨by with_unfolding_all decide,
    freshness_gate.2.2 _ 100 (some "K") _ _ (by with_unfolding_all decide)⟩

/-- C9: every snapshot produced by a fully successful refresh (two fetches,
no exception, no error reply) carries a fiat entry `EUR ↦ 1.0`, and
`get_rate EUR EUR` on that snapshot returns exactly `1.0`. -/
theorem eur_base_invariant :
    ∀ (st : CurrencyState) (now : Rat) (k : Option String)
      (cr : Option (HttpResp (List (String × Rat)))) (fr : Option (HttpResp FiatBody)),
      (update_rates st now k cr fr).fetches = 2 →
      (update_rates st now k cr fr).exc = none →
      (update_rates st now k cr fr).replies = [] →
      ∃ tbl, (update_rates st now k cr fr).state.rates_fiat_json.rates = some tbl ∧
        dictGet tbl "EUR" = some 1 ∧
        get_rate (update_rates st now k cr fr).state "EUR" "EUR" = .ok (.num 1) := by
  intro st now k cr fr hf he hr
  unfold update_rates finishFiat at hf he hr ⊢
  repeat' split at hf
  all_goals simp_all
  all_goals exact ⟨dictGet_dictSet_self _ _ _,
    get_rate_eur_one _ _ rfl (dictGet_dictSet_self _ _ _)⟩

/-- Witness for C9 on a concrete successful refresh from the empty store. -/
theorem eur_base_invariant_witness :
    ∃ tbl, (update_rates ⟨⟨none, none⟩, []⟩ 5 none (some ⟨true, some [("BTCUSD", 5)]⟩)
        (some ⟨true, some ⟨none, none, some [("USD", 2)]⟩⟩)).state.rates_fiat_json.rates =
        some tbl ∧
      dictGet tbl "EUR" = some 1 ∧
      get_rate (update_rates ⟨⟨none, none⟩, []⟩ 5 none (some ⟨true, some [("BTCUSD", 5)]⟩)
        (some ⟨true, some ⟨none, none, some [("USD", 2)]⟩⟩)).state "EUR" "EUR" =
        .ok (.num 1) :=
  eur_base_invariant _ 5 none _ _ (by with_unfolding_all rfl) (by with_unfolding_all rfl)
    (by with_unfolding_all rfl)

/-- C10: the base-currency identity does not extend to the crypto symbol —
whenever the crypto table has no `"BTCBTC"` key, `get_rate BTC BTC` takes the
unsupported branch, returns the message naming `BTC`, and in particular never
returns a number (so not `1.0`). -/
theorem btc_btc_unsupported :
    ∀ st : CurrencyState, dictGet st.rates_btc_json "BTCBTC" = none →
      get_rate st "BTC" "BTC" = .ok (.msg "Sorry BTC isn't currently supported") ∧
      ∀ q : Rat, get_rate st "BTC" "BTC" ≠ .ok (.num q) := by
  intro st h
  have hb : get_rate st "BTC" "BTC" = .ok (.msg "Sorry BTC isn't currently supported") := by
    simp [get_rate, btc_rate, show pyUpper "BTC" = "BTC" from rfl,
      show ("BTC" ++ "BTC" : String) = "BTCBTC" from rfl, h]
  refine ⟨hb, fun q hq => ?_⟩
  rw [hb] at hq
  simp at hq

/-- Witness for C10 on a crypto table keyed only by BTC+fiat pairs. -/
theorem btc_btc_unsupported_witness :
    get_rate ⟨⟨none, none⟩, [("BTCUSD", 5)]⟩ "BTC" "BTC" =
      .ok (.msg "Sorry BTC isn't currently supported") ∧
    get_rate ⟨⟨none, none⟩, [("BTCUSD", 5)]⟩ "BTC" "BTC" ≠ .ok (.num 1) :=
  ⟨(btc_btc_unsupported _ (by with_unfolding_all rfl)).1,
    (btc_btc_unsupported _ (by with_unfolding_all rfl)).2 1⟩

/-- C8 (counterexample): the trigger regex is not the case-insensitive
grammar.  `"100 usd IN eur"` belongs to the claimed case-insensitive grammar
but the regex — whose preposition alternatives are lowercase literals and
which is compiled without `re.IGNORECASE` — rejects it, so the parser yields
no query; conversely `"100 usd in eur "` (trailing space) is accepted by the
regex but not by the claimed grammar. -/
theorem regex_preposition_case_sensitive :
    (specGrammarCI "100 usd IN eur" = true ∧ EXCHANGE_REGEX_match "100 usd IN eur" = false ∧
      parseQuery "100 usd IN eur" = none) ∧
    (EXCHANGE_REGEX_match "100 usd in eur " = true ∧ specGrammarCI "100 usd in eur " = false) := by
  with_unfolding_all decide

/-- C8 (amended): the parser accepts exactly the claimed grammar amended so
that the preposition is lowercase-only, a single trailing whitespace is
allowed after the last target, and the end anchor also matches just before a
final newline; the two parse examples behave as claimed, with `"100 usd in
btc cad eur"` decomposing to amount `100`, source `USD` and targets
`[BTC, CAD, EUR]` in order. -/
theorem exchange_regex_grammar :
    (∀ s, EXCHANGE_REGEX_match s = specGrammarAmended s) ∧
    parseQuery "100 usd in btc cad eur" = some (some 100, "USD", ["BTC", "CAD", "EUR"]) ∧
    parseQuery "not a query" = none :=
  ⟨regex_eq_specAmended, by with_unfolding_all rfl, by with_unfolding_all rfl⟩
